import Mathlib

/-!
Verification of the ShokoRocket simulation engine (a ChuChu-Rocket style
puzzle game): fixed-point sub-cell arithmetic, walkers (mice and cats),
the 12x9 toroidal world with bit-packed wall storage, the per-tick
resolution algorithm, the top-level application state machine, and the
map-authoring arrow extraction.  Rust machine integers (i8 / i16 / u8)
are modelled as `Int` / `Nat` with explicit wrap-around where the source
can overflow.
-/

set_option maxRecDepth 16384
set_option maxHeartbeats 1000000

namespace ShokoRocket

/-! ## Machine-integer wrapping helpers (two's complement semantics) -/

/-- Wrap an integer into the i8 range [-128, 127]. -/
def i8wrap (n : Int) : Int := (n + 128) % 256 - 128

/-- Wrap an integer into the i16 range [-32768, 32767]. -/
def i16wrap (n : Int) : Int := (n + 32768) % 65536 - 32768

theorem i8wrap_of_bounds (n : Int) (h₁ : -128 ≤ n) (h₂ : n ≤ 127) : i8wrap n = n := by
  unfold i8wrap; omega

theorem i16wrap_of_bounds (n : Int) (h₁ : -32768 ≤ n) (h₂ : n ≤ 32767) : i16wrap n = n := by
  unfold i16wrap; omega

/-! ## Direction (src/src/direction.rs) -/

inductive Direction where
  | Up
  | Down
  | Left
  | Right
deriving DecidableEq, Repr, Fintype

namespace Direction

def turn_right : Direction → Direction
  | Up => Right
  | Down => Left
  | Left => Up
  | Right => Down

def turn_left : Direction → Direction
  | Up => Left
  | Down => Right
  | Left => Down
  | Right => Up

def turn_around : Direction → Direction
  | Up => Down
  | Down => Up
  | Left => Right
  | Right => Left

end Direction

/-! ## TileType (src/src/tile_type.rs) -/

inductive TileType where
  | Empty
  | Rocket
  | Hole
  | Up
  | UpHalf
  | Down
  | DownHalf
  | Left
  | LeftHalf
  | Right
  | RightHalf
deriving DecidableEq, Repr, Fintype

namespace TileType

/-- `TileType::diminish`: full arrows become half arrows, half arrows become
empty, everything else is unchanged. -/
def diminish : TileType → TileType
  | Up => UpHalf
  | Down => DownHalf
  | Left => LeftHalf
  | Right => RightHalf
  | UpHalf => Empty
  | DownHalf => Empty
  | LeftHalf => Empty
  | RightHalf => Empty
  | t => t

/-- `TryFrom<TileType> for Direction`: the eight arrow variants convert to
their direction; Empty/Rocket/Hole fail (modelled as `none`). -/
def tileDirection : TileType → Option Direction
  | Up => some .Up
  | UpHalf => some .Up
  | Down => some .Down
  | DownHalf => some .Down
  | Left => some .Left
  | LeftHalf => some .Left
  | Right => some .Right
  | RightHalf => some .Right
  | Empty => none
  | Rocket => none
  | Hole => none

end TileType

/-! ## FixedPoint (src/src/fixed_point.rs)

`value` is an i8, `fractional` an i16 scaled to 360 units per whole unit.
Addition and subtraction follow the Rust source exactly: the fractional
parts are summed, then exactly one renormalisation step is applied —
`add_assign` only handles `fractional_sum >= 360` and `sub_assign` only
handles `fractional_sum <= -360`. -/

structure FixedPoint where
  value : Int
  fractional : Int
deriving DecidableEq, Repr

namespace FixedPoint

def new (value fractional : Int) : FixedPoint := ⟨value, fractional⟩

/-- `AddAssign for FixedPoint` (also `Add` via `+=`). -/
def add (a b : FixedPoint) : FixedPoint :=
  let fractional_sum := i16wrap (a.fractional + b.fractional)
  let integral_sum := i8wrap (a.value + b.value)
  if 360 ≤ fractional_sum then
    { value := i8wrap (integral_sum + 1), fractional := i16wrap (fractional_sum - 360) }
  else
    { value := integral_sum, fractional := fractional_sum }

/-- `SubAssign for FixedPoint` (also `Sub` via `-=`). -/
def sub (a b : FixedPoint) : FixedPoint :=
  let fractional_sum := i16wrap (a.fractional - b.fractional)
  let integral_sum := i8wrap (a.value - b.value)
  if fractional_sum ≤ -360 then
    { value := i8wrap (integral_sum - 1), fractional := i16wrap (fractional_sum + 360) }
  else
    { value := integral_sum, fractional := fractional_sum }

/-- `FixedPoint::did_overflow`: true iff the integer part differs from the
prior snapshot. -/
def did_overflow (a prev : FixedPoint) : Bool := a.value ≠ prev.value

/-- `FixedPoint::integer_part`. -/
def integer_part (a : FixedPoint) : Int := a.value

end FixedPoint

/-! ## Walker (src/src/walker.rs) -/

inductive WalkerType where
  | Mouse
  | Cat
deriving DecidableEq, Repr

inductive WalkResult where
  | None
  | NewSquare
deriving DecidableEq, Repr

inductive WalkerState where
  | Alive
  | Dead
  | Rescued
deriving DecidableEq, Repr

structure Walker where
  x : FixedPoint
  y : FixedPoint
  direction : Direction
  walker_type : WalkerType
  walker_state : WalkerState
deriving DecidableEq, Repr

namespace Walker

/-- `Walker::new`: created at integer grid coordinates, state Alive. -/
def new (x y : Int) (direction : Direction) (walker_type : WalkerType) : Walker :=
  { x := FixedPoint.new x 0
    y := FixedPoint.new y 0
    direction := direction
    walker_type := walker_type
    walker_state := .Alive }

/-- `Walker::walk`: advances the position by the kind-dependent speed in
the direction of travel and reports whether the integer coordinate
changed.  Returns the updated walker together with the `WalkResult`. -/
def walk (w : Walker) : Walker × WalkResult :=
  let speed : FixedPoint :=
    match w.walker_type with
    | .Cat => FixedPoint.new 0 4
    | .Mouse => FixedPoint.new 0 6
  let (w', reached_new_square) :=
    match w.direction with
    | .Up =>
        let start := w.y
        let y' := start.sub speed
        ({ w with y := y' }, y'.did_overflow start)
    | .Down =>
        let start := w.y
        let y' := start.add speed
        ({ w with y := y' }, y'.did_overflow start)
    | .Left =>
        let start := w.x
        let x' := start.sub speed
        ({ w with x := x' }, x'.did_overflow start)
    | .Right =>
        let start := w.x
        let x' := start.add speed
        ({ w with x := x' }, x'.did_overflow start)
  (w', if reached_new_square then .NewSquare else .None)

def get_type (w : Walker) : WalkerType := w.walker_type

def get_x (w : Walker) : FixedPoint := w.x

def get_y (w : Walker) : FixedPoint := w.y

def get_direction (w : Walker) : Direction := w.direction

def set_direction (w : Walker) (direction : Direction) : Walker :=
  { w with direction := direction }

def get_state (w : Walker) : WalkerState := w.walker_state

/-- `Walker::rescue` (the source asserts the walker is Alive; the assertion
is a fatal precondition, the state update itself is unconditional). -/
def rescue (w : Walker) : Walker := { w with walker_state := .Rescued }

/-- `Walker::kill` (same assertion remark as `rescue`). -/
def kill (w : Walker) : Walker := { w with walker_state := .Dead }

end Walker

/-! ## World storage (src/simulation/src/world.rs)

The world is a 12x9 grid.  Wall presence is stored bit-packed in the
199-byte data buffer after a 64-byte header: one byte per four cells,
with per-column masks selecting the up/left wall bits.  Down/right walls
are resolved to the stored up/left wall of the toroidally adjacent cell.
Bytes of the buffer are u8 values modelled as `Nat`; the u8 complement
`!mask` is modelled as `255 ^^^ mask`. -/

def WORLD_WIDTH : Nat := 12
def WORLD_HEIGHT : Nat := 9
def HEADER_SIZE : Nat := 64
def WALL_BLOCK_SIZE : Nat := 27

/-- `LEFT_WALL_MASK`: masks used to pack the left walls, four per byte. -/
def LEFT_WALL_MASK : List Nat := [2, 8, 32, 128]

/-- `TOP_WALL_MASK`: masks used to pack the top walls, four per byte. -/
def TOP_WALL_MASK : List Nat := [1, 4, 16, 64]

structure World where
  data : List Nat
  mice : List Walker
  cats : List Walker
  tiles : List TileType

namespace World

/-- `World::get_wrapped_wall_index_and_mask`: resolves a wall addressed by
`(x, y, direction)` to the index of its storage byte inside the wall block
and the bitmask selecting it, wrapping toroidally for Down/Right. -/
def get_wrapped_wall_index_and_mask (x y : Nat) (direction : Direction) : Nat × Nat :=
  let exym : Nat × Nat × Nat :=
    match direction with
    | .Up => (x, y, TOP_WALL_MASK.getD (x &&& 3) 0)
    | .Down => (x, (y + 1) % WORLD_HEIGHT, TOP_WALL_MASK.getD (x &&& 3) 0)
    | .Left => (x, y, LEFT_WALL_MASK.getD (x &&& 3) 0)
    | .Right => ((x + 1) % WORLD_WIDTH, y, LEFT_WALL_MASK.getD ((x + 1) &&& 3) 0)
  let e_x := exym.1
  let e_y := exym.2.1
  let mask := exym.2.2
  ((e_y * WORLD_WIDTH + e_x) / 4, mask)

/-- `World::set_wall`: sets or clears the bit for one (shared) wall edge. -/
def set_wall (w : World) (x y : Nat) (direction : Direction) (present : Bool) : World :=
  let im := get_wrapped_wall_index_and_mask x y direction
  let byte := w.data.getD (HEADER_SIZE + im.1) 0
  let byte' := if present then byte ||| im.2 else byte &&& (255 ^^^ im.2)
  { w with data := w.data.set (HEADER_SIZE + im.1) byte' }

/-- `World::get_wall_static`. -/
def get_wall_static (wall_data : List Nat) (x y : Nat) (direction : Direction) : Bool :=
  let im := get_wrapped_wall_index_and_mask x y direction
  (wall_data.getD (HEADER_SIZE + im.1) 0) &&& im.2 == im.2

/-- `World::get_wall`. -/
def get_wall (w : World) (x y : Nat) (direction : Direction) : Bool :=
  get_wall_static w.data x y direction

/-- `World::new`: empty world, then walls along the top row and the left
column (which, through the toroidal indirection, also closes the bottom
and right boundary). -/
def new : World :=
  let world : World :=
    { data := List.replicate 199 0
      mice := []
      cats := []
      tiles := List.replicate 108 TileType.Empty }
  let world := (List.range WORLD_WIDTH).foldl (fun w x => w.set_wall x 0 .Up true) world
  let world := (List.range WORLD_HEIGHT).foldl (fun w y => w.set_wall 0 y .Left true) world
  world

end World

/-! ## Bitwise facts used for the packed wall storage -/

theorem lor_land_self (b m : Nat) : (b ||| m) &&& m = m := by
  apply Nat.eq_of_testBit_eq
  intro i
  simp only [Nat.testBit_land, Nat.testBit_lor]
  cases m.testBit i <;> simp

theorem land_lor_distrib (a b c : Nat) : (a ||| b) &&& c = (a &&& c) ||| (b &&& c) := by
  apply Nat.eq_of_testBit_eq
  intro i
  simp only [Nat.testBit_land, Nat.testBit_lor]
  cases a.testBit i <;> cases b.testBit i <;> cases c.testBit i <;> rfl

theorem land_three_eq_mod (x : Nat) : x &&& 3 = x % 4 := by
  apply Nat.eq_of_testBit_eq
  intro i
  rw [Nat.testBit_land, show (4 : Nat) = 2 ^ 2 from rfl, Nat.testBit_mod_two_pow]
  rcases Nat.lt_or_ge i 2 with h | h
  · interval_cases i <;> simp [Nat.testBit]
  · have h3 : Nat.testBit 3 i = false := by
      apply Nat.testBit_eq_false_of_lt
      calc (3 : Nat) < 2 ^ 2 := by norm_num
        _ ≤ 2 ^ i := Nat.pow_le_pow_right (by norm_num) h
    have h2 : ¬(i < 2) := by omega
    simp [h3, h2]

/-- The eight bit masks that can select a packed wall bit. -/
def wallMasks : List Nat := [1, 2, 4, 8, 16, 32, 64, 128]

theorem wall_index_mask_bounds (x y : Nat) (hx : x < WORLD_WIDTH) (hy : y < WORLD_HEIGHT)
    (d : Direction) :
    (World.get_wrapped_wall_index_and_mask x y d).1 < 27 ∧
    (World.get_wrapped_wall_index_and_mask x y d).2 ∈ wallMasks := by
  have hx4 : x % 4 < 4 := Nat.mod_lt _ (by norm_num)
  have hx14 : (x + 1) % 4 < 4 := Nat.mod_lt _ (by norm_num)
  simp only [WORLD_WIDTH, WORLD_HEIGHT] at hx hy
  cases d <;>
    simp only [World.get_wrapped_wall_index_and_mask, WORLD_WIDTH, WORLD_HEIGHT,
      land_three_eq_mod] <;>
    constructor
  · omega
  · interval_cases h4 : x % 4 <;> decide
  · omega
  · interval_cases h4 : x % 4 <;> decide
  · omega
  · interval_cases h4 : x % 4 <;> decide
  · omega
  · interval_cases h4 : (x + 1) % 4 <;> decide

theorem mask_ne_zero {m : Nat} (hm : m ∈ wallMasks) : m ≠ 0 := by
  fin_cases hm <;> decide

theorem mask_clear_self {m : Nat} (hm : m ∈ wallMasks) : (255 ^^^ m) &&& m = 0 := by
  fin_cases hm <;> decide

theorem mask_indep_core (b m m' : Nat) (h1 : m &&& m' = 0) (h2 : (255 ^^^ m) &&& m' = m') :
    (b ||| m) &&& m' = b &&& m' ∧ (b &&& (255 ^^^ m)) &&& m' = b &&& m' := by
  constructor
  · rw [land_lor_distrib, h1, Nat.or_zero]
  · rw [Nat.land_assoc, h2]

/-- Updating one packed wall bit leaves every other mask's reading of the
same byte unchanged. -/
theorem mask_indep {m m' : Nat} (hm : m ∈ wallMasks) (hm' : m' ∈ wallMasks)
    (hne : m ≠ m') (b : Nat) :
    (b ||| m) &&& m' = b &&& m' ∧ (b &&& (255 ^^^ m)) &&& m' = b &&& m' := by
  fin_cases hm <;> fin_cases hm' <;>
    first
      | exact absurd rfl hne
      | exact mask_indep_core b _ _ (by decide) (by decide)

theorem getD_set_idx (l : List Nat) (i v : Nat) (h : i < l.length) :
    (l.set i v).getD i 0 = v := by
  simp [List.getD_eq_getElem?_getD, List.getElem?_set_self, h]

theorem getD_set_other (l : List Nat) (i j v : Nat) (h : i ≠ j) :
    (l.set i v).getD j 0 = l.getD j 0 := by
  simp [List.getD_eq_getElem?_getD, List.getElem?_set_ne h]

/-- The toroidally adjacent cell on the other side of the wall edge
addressed by `(x, y, direction)`. -/
def adjWallCell (x y : Nat) : Direction → Nat × Nat
  | .Up => (x, (y + (WORLD_HEIGHT - 1)) % WORLD_HEIGHT)
  | .Down => (x, (y + 1) % WORLD_HEIGHT)
  | .Left => ((x + (WORLD_WIDTH - 1)) % WORLD_WIDTH, y)
  | .Right => ((x + 1) % WORLD_WIDTH, y)

/-- Querying the shared edge from the adjacent cell in the opposite
direction resolves to the same stored byte and mask. -/
theorem adj_opposite_same_edge (x y : Nat) (hx : x < WORLD_WIDTH) (hy : y < WORLD_HEIGHT)
    (d : Direction) :
    World.get_wrapped_wall_index_and_mask (adjWallCell x y d).1 (adjWallCell x y d).2
      d.turn_around = World.get_wrapped_wall_index_and_mask x y d := by
  simp only [WORLD_WIDTH, WORLD_HEIGHT] at hx hy
  cases d
  · simp only [adjWallCell, Direction.turn_around, World.get_wrapped_wall_index_and_mask,
      WORLD_WIDTH, WORLD_HEIGHT, land_three_eq_mod]
    have h2 : ((y + 8) % 9 + 1) % 9 = y := by omega
    rw [h2]
  · simp only [adjWallCell, Direction.turn_around, World.get_wrapped_wall_index_and_mask,
      WORLD_WIDTH, WORLD_HEIGHT, land_three_eq_mod]
  · simp only [adjWallCell, Direction.turn_around, World.get_wrapped_wall_index_and_mask,
      WORLD_WIDTH, WORLD_HEIGHT, land_three_eq_mod]
    have hex : ((x + 11) % 12 + 1) % 12 = x := by omega
    have hmask : ((x + 11) % 12 + 1) % 4 = x % 4 := by omega
    rw [hex, hmask]
  · simp only [adjWallCell, Direction.turn_around, World.get_wrapped_wall_index_and_mask,
      WORLD_WIDTH, WORLD_HEIGHT, land_three_eq_mod]
    have h : (x + 1) % 12 % 4 = (x + 1) % 4 := by omega
    rw [h]

theorem get_wall_static_congr (data : List Nat) {x y x' y' : Nat} {d d' : Direction}
    (h : World.get_wrapped_wall_index_and_mask x' y' d' =
         World.get_wrapped_wall_index_and_mask x y d) :
    World.get_wall_static data x' y' d' = World.get_wall_static data x y d := by
  simp only [World.get_wall_static, h]

/-- Reading back the very edge just written returns the written value. -/
theorem get_after_set_same (w : World) (hw : w.data.length = 199) (x y : Nat)
    (hx : x < WORLD_WIDTH) (hy : y < WORLD_HEIGHT) (d : Direction) (p : Bool) :
    World.get_wall_static (w.set_wall x y d p).data x y d = p := by
  obtain ⟨hidx, hmask⟩ := wall_index_mask_bounds x y hx hy d
  simp only [World.set_wall, World.get_wall_static]
  rw [getD_set_idx _ _ _ (by simp only [HEADER_SIZE]; omega)]
  cases p
  · simp only [Bool.false_eq_true, if_false]
    rw [Nat.land_assoc, mask_clear_self hmask, Nat.and_zero]
    have h0 := mask_ne_zero hmask
    simp only [beq_eq_false_iff_ne, ne_eq]
    exact fun h => h0 h.symm
  · simp only [if_true]
    rw [lor_land_self]
    simp

/-- C4: after `set_wall(x, y, d, p)`, `get_wall(x, y, d)` returns `p`, and
querying the same shared edge from the toroidally adjacent cell in the
opposite direction also returns `p`. -/
theorem c4_set_wall_get_wall_shared_edge (w : World) (hw : w.data.length = 199)
    (x y : Nat) (hx : x < WORLD_WIDTH) (hy : y < WORLD_HEIGHT) (d : Direction) (p : Bool) :
    (w.set_wall x y d p).get_wall x y d = p ∧
    (w.set_wall x y d p).get_wall (adjWallCell x y d).1 (adjWallCell x y d).2
      d.turn_around = p := by
  refine ⟨get_after_set_same w hw x y hx hy d p, ?_⟩
  show World.get_wall_static _ _ _ _ = p
  rw [get_wall_static_congr _ (adj_opposite_same_edge x y hx hy d)]
  exact get_after_set_same w hw x y hx hy d p

/-- Witness for C4 at a concrete world and coordinate: a Down wall written
at (3, 8) is read back both at (3, 8, Down) and at the wrapped cell
(3, 0, Up). -/
theorem c4_set_wall_get_wall_shared_edge_witness :
    (World.new.set_wall 3 8 .Down true).get_wall 3 8 .Down = true ∧
    (World.new.set_wall 3 8 .Down true).get_wall 3 0 .Up = true :=
  c4_set_wall_get_wall_shared_edge World.new (by decide) 3 8 (by decide) (by decide)
    .Down true

/-- The wall buffer of a freshly constructed world. -/
def newWorldData : List Nat :=
  List.replicate 64 0 ++
    [87, 85, 85, 2, 0, 0, 2, 0, 0, 2, 0, 0, 2, 0, 0, 2, 0, 0, 2, 0, 0, 2, 0, 0, 2, 0, 0] ++
    List.replicate 108 0

theorem world_new_data_eq : World.new.data = newWorldData := by decide

theorem new_world_boundary_walls_fin :
    ∀ (x : Fin 12) (y : Fin 9) (d : Direction),
      (World.get_wall_static newWorldData x.val y.val d = true ↔
        (d = .Up ∧ y.val = 0) ∨ (d = .Down ∧ y.val = 8) ∨
        (d = .Left ∧ x.val = 0) ∨ (d = .Right ∧ x.val = 11)) := by
  decide

/-- C5: a newly constructed world has walls on exactly the outer boundary:
Up walls on row 0 (equivalently Down walls on row 8), Left walls on
column 0 (equivalently Right walls on column 11), and nothing else. -/
theorem c5_new_world_boundary_walls :
    ∀ x, x < WORLD_WIDTH → ∀ y, y < WORLD_HEIGHT → ∀ d : Direction,
      (World.new.get_wall x y d = true ↔
        (d = .Up ∧ y = 0) ∨ (d = .Down ∧ y = WORLD_HEIGHT - 1) ∨
        (d = .Left ∧ x = 0) ∨ (d = .Right ∧ x = WORLD_WIDTH - 1)) := by
  simp only [World.get_wall, world_new_data_eq, WORLD_WIDTH, WORLD_HEIGHT]
  intro x hx y hy d
  exact new_world_boundary_walls_fin ⟨x, hx⟩ ⟨y, hy⟩ d

/-- Witness for C5: boundary walls present at (0,0); an interior Down wall
at (5,4) absent. -/
theorem c5_new_world_boundary_walls_witness :
    (World.new.get_wall 0 0 .Up = true ↔
      (Direction.Up = .Up ∧ 0 = 0) ∨ (Direction.Up = .Down ∧ 0 = WORLD_HEIGHT - 1) ∨
      (Direction.Up = .Left ∧ 0 = 0) ∨ (Direction.Up = .Right ∧ 0 = WORLD_WIDTH - 1)) :=
  c5_new_world_boundary_walls 0 (by decide) 0 (by decide) .Up

/-- C10: `set_wall` only modifies the single shared edge it addresses:
all wall queries resolving to a different stored edge are unchanged, the
header bytes, the entity/arrow bytes, the tile grid and both walker
registries are untouched. -/
theorem c10_set_wall_frame (w : World) (hw : w.data.length = 199) (x y : Nat)
    (hx : x < WORLD_WIDTH) (hy : y < WORLD_HEIGHT) (d : Direction) (p : Bool) :
    (∀ x' y' (d' : Direction), x' < WORLD_WIDTH → y' < WORLD_HEIGHT →
        World.get_wrapped_wall_index_and_mask x' y' d' ≠
          World.get_wrapped_wall_index_and_mask x y d →
        (w.set_wall x y d p).get_wall x' y' d' = w.get_wall x' y' d') ∧
    (∀ i, i < 64 → (w.set_wall x y d p).data.getD i 0 = w.data.getD i 0) ∧
    (∀ i, 91 ≤ i → i < 199 → (w.set_wall x y d p).data.getD i 0 = w.data.getD i 0) ∧
    (w.set_wall x y d p).tiles = w.tiles ∧
    (w.set_wall x y d p).mice = w.mice ∧
    (w.set_wall x y d p).cats = w.cats := by
  obtain ⟨hidx, hmask⟩ := wall_index_mask_bounds x y hx hy d
  refine ⟨?_, ?_, ?_, rfl, rfl, rfl⟩
  · intro x' y' d' hx' hy' hne
    obtain ⟨hidx', hmask'⟩ := wall_index_mask_bounds x' y' hx' hy' d'
    simp only [World.set_wall, World.get_wall, World.get_wall_static]
    rcases Nat.decEq (World.get_wrapped_wall_index_and_mask x' y' d').1
        (World.get_wrapped_wall_index_and_mask x y d).1 with hi | hi
    · rw [getD_set_other _ _ _ _ (by simp only [HEADER_SIZE]; omega)]
    · -- same byte, necessarily different mask
      have hmne : (World.get_wrapped_wall_index_and_mask x y d).2 ≠
          (World.get_wrapped_wall_index_and_mask x' y' d').2 := by
        intro hmeq
        exact hne (Prod.ext hi (hmeq.symm))
      rw [hi, getD_set_idx _ _ _ (by simp only [HEADER_SIZE]; omega)]
      cases p
      · simp only [Bool.false_eq_true, if_false]
        rw [(mask_indep hmask hmask' hmne _).2]
      · simp only [if_true]
        rw [(mask_indep hmask hmask' hmne _).1]
  · intro i hi
    simp only [World.set_wall]
    rw [getD_set_other _ _ _ _ (by simp only [HEADER_SIZE]; omega)]
  · intro i h91 h199
    simp only [World.set_wall]
    rw [getD_set_other _ _ _ _ (by simp only [HEADER_SIZE]; omega)]

/-- Witness for C10 at a concrete world: writing the Up wall of (3, 4)
leaves the unrelated wall (7, 2, Left), a header byte and an entity byte
unchanged. -/
theorem c10_set_wall_frame_witness :
    (World.new.set_wall 3 4 .Up true).get_wall 7 2 .Left = World.new.get_wall 7 2 .Left ∧
    (World.new.set_wall 3 4 .Up true).data.getD 0 0 = World.new.data.getD 0 0 ∧
    (World.new.set_wall 3 4 .Up true).data.getD 95 0 = World.new.data.getD 95 0 :=
  ⟨(c10_set_wall_frame World.new (by decide) 3 4 (by decide) (by decide) .Up true).1
      7 2 .Left (by decide) (by decide) (by decide),
   (c10_set_wall_frame World.new (by decide) 3 4 (by decide) (by decide) .Up true).2.1
      0 (by decide),
   (c10_set_wall_frame World.new (by decide) 3 4 (by decide) (by decide) .Up true).2.2.1
      95 (by decide) (by decide)⟩

/-! ## C2: FixedPoint renormalization -/

/-- C2 counterexample: both summands have fractional part in [-359, 359],
yet `add` leaves the sum's fractional part at -718 — `add_assign` only
renormalizes positive overflow (`>= 360`), never negative overflow. -/
theorem c2_fixed_point_renormalization_counterexample :
    (-359 ≤ (FixedPoint.new 0 (-359)).fractional ∧ (FixedPoint.new 0 (-359)).fractional ≤ 359) ∧
    (FixedPoint.add (FixedPoint.new 0 (-359)) (FixedPoint.new 0 (-359))).fractional = -718 ∧
    ¬(-359 ≤ (FixedPoint.add (FixedPoint.new 0 (-359)) (FixedPoint.new 0 (-359))).fractional ∧
      (FixedPoint.add (FixedPoint.new 0 (-359)) (FixedPoint.new 0 (-359))).fractional ≤ 359) := by
  decide

/-- C2 (amended): for fractional parts in [-359, 359], `add` keeps the
result's fractional part in [-359, 359] whenever the fractional sum
exceeds -360, and `sub` whenever the fractional difference is below 360.
The exact results are pinned: the fractional part is the raw sum
(difference) minus (plus) 360 exactly when it overflows on that side,
with the carry (borrow) added to (subtracted from) the i8 integer part;
addition never renormalizes a fractional sum at or below -360 and
subtraction never renormalizes a difference at or above 360 — there the
raw out-of-range fractional value persists. -/
theorem c2_fixed_point_renormalization (a b : FixedPoint)
    (ha₁ : -359 ≤ a.fractional) (ha₂ : a.fractional ≤ 359)
    (hb₁ : -359 ≤ b.fractional) (hb₂ : b.fractional ≤ 359) :
    ((-360 < a.fractional + b.fractional →
        -359 ≤ (a.add b).fractional ∧ (a.add b).fractional ≤ 359) ∧
      (a.add b).fractional =
        a.fractional + b.fractional -
          360 * (if 360 ≤ a.fractional + b.fractional then 1 else 0) ∧
      (a.add b).value =
        i8wrap (a.value + b.value +
          (if 360 ≤ a.fractional + b.fractional then 1 else 0)) ∧
      (a.fractional + b.fractional ≤ -360 →
        (a.add b).fractional = a.fractional + b.fractional)) ∧
    ((a.fractional - b.fractional < 360 →
        -359 ≤ (a.sub b).fractional ∧ (a.sub b).fractional ≤ 359) ∧
      (a.sub b).fractional =
        a.fractional - b.fractional +
          360 * (if a.fractional - b.fractional ≤ -360 then 1 else 0) ∧
      (a.sub b).value =
        i8wrap (a.value - b.value -
          (if a.fractional - b.fractional ≤ -360 then 1 else 0)) ∧
      (360 ≤ a.fractional - b.fractional →
        (a.sub b).fractional = a.fractional - b.fractional)) := by
  have hs1 : i16wrap (a.fractional + b.fractional) = a.fractional + b.fractional :=
    i16wrap_of_bounds _ (by omega) (by omega)
  have hs2 : i16wrap (a.fractional - b.fractional) = a.fractional - b.fractional :=
    i16wrap_of_bounds _ (by omega) (by omega)
  constructor
  · simp only [FixedPoint.add, hs1]
    split_ifs with h
    all_goals
      refine ⟨fun hh => ?_, ?_, ?_, fun hh => ?_⟩ <;>
        (try dsimp only) <;>
        first
          | (simp only [i16wrap, i8wrap]; omega)
          | omega
  · simp only [FixedPoint.sub, hs2]
    split_ifs with h
    all_goals
      refine ⟨fun hh => ?_, ?_, ?_, fun hh => ?_⟩ <;>
        (try dsimp only) <;>
        first
          | (simp only [i16wrap, i8wrap]; omega)
          | omega

/-- Witness for C2 (amended), addition half, at 100/360 + 300/360: the
fractional sum 400 overflows, leaving fractional 40 and carrying 1 into
the integer part. -/
theorem c2_fixed_point_renormalization_witness :
    (-360 < (FixedPoint.new 0 100).fractional + (FixedPoint.new 0 300).fractional →
      -359 ≤ (FixedPoint.add (FixedPoint.new 0 100) (FixedPoint.new 0 300)).fractional ∧
        (FixedPoint.add (FixedPoint.new 0 100) (FixedPoint.new 0 300)).fractional ≤ 359) ∧
    (FixedPoint.add (FixedPoint.new 0 100) (FixedPoint.new 0 300)).fractional =
      (FixedPoint.new 0 100).fractional + (FixedPoint.new 0 300).fractional -
        360 * (if 360 ≤ (FixedPoint.new 0 100).fractional +
          (FixedPoint.new 0 300).fractional then 1 else 0) ∧
    (FixedPoint.add (FixedPoint.new 0 100) (FixedPoint.new 0 300)).value =
      i8wrap ((FixedPoint.new 0 100).value + (FixedPoint.new 0 300).value +
        (if 360 ≤ (FixedPoint.new 0 100).fractional +
          (FixedPoint.new 0 300).fractional then 1 else 0)) ∧
    ((FixedPoint.new 0 100).fractional + (FixedPoint.new 0 300).fractional ≤ -360 →
      (FixedPoint.add (FixedPoint.new 0 100) (FixedPoint.new 0 300)).fractional =
        (FixedPoint.new 0 100).fractional + (FixedPoint.new 0 300).fractional) :=
  (c2_fixed_point_renormalization (FixedPoint.new 0 100) (FixedPoint.new 0 300)
    (by decide) (by decide) (by decide) (by decide)).1

/-! ## Walker iteration (C8): the walk schedule

`walkN w n` is the walker after `n` consecutive `walk()` calls. -/

def walkN (w : Walker) : Nat → Walker
  | 0 => w
  | n + 1 => ((walkN w n).walk).1

/-- Ticks per cell: 60 for a mouse (speed 6/360), 90 for a cat (speed 4/360). -/
def period : WalkerType → Nat
  | .Mouse => 60
  | .Cat => 90

/-- Fractional speed per tick of each walker kind. -/
def speedFrac : WalkerType → Int
  | .Mouse => 6
  | .Cat => 4

theorem i8wrap_idem (x : Int) : i8wrap (i8wrap x) = i8wrap x := by
  unfold i8wrap; omega

theorem i8wrap_add_one (x : Int) : i8wrap (i8wrap x + 1) = i8wrap (x + 1) := by
  unfold i8wrap; omega

theorem i8wrap_sub_one (x : Int) : i8wrap (i8wrap x - 1) = i8wrap (x - 1) := by
  unfold i8wrap; omega

theorem walkN_right (k : WalkerType) (x0 y0 : Int) (hx₁ : -128 ≤ x0) (hx₂ : x0 ≤ 127)
    (n : Nat) :
    walkN (Walker.new x0 y0 .Right k) n =
      { x := ⟨i8wrap (x0 + ((n / period k : Nat) : Int)),
              speedFrac k * ((n % period k : Nat) : Int)⟩,
        y := ⟨y0, 0⟩, direction := .Right, walker_type := k,
        walker_state := .Alive } := by
  induction n with
  | zero =>
    cases k <;>
      simp [walkN, Walker.new, FixedPoint.new, period, speedFrac,
        i8wrap_of_bounds x0 hx₁ hx₂]
  | succ n ih =>
    cases k
    case Mouse =>
      show ((walkN _ n).walk).1 = _
      rw [ih]
      simp only [Walker.walk, period, speedFrac, FixedPoint.new, FixedPoint.add,
        FixedPoint.did_overflow]
      have hm : ((n % 60 : Nat) : Int) ≤ 59 := by omega
      rw [i16wrap_of_bounds (6 * ((n % 60 : Nat) : Int) + 6) (by omega) (by omega)]
      simp only [Int.add_zero, i8wrap_idem, i8wrap_add_one]
      split_ifs with hc
      · have h59 : n % 60 = 59 := by omega
        have hq : (n + 1) / 60 = n / 60 + 1 := by omega
        have hr : (n + 1) % 60 = 0 := by omega
        simp only [Walker.mk.injEq, FixedPoint.mk.injEq, hq, hr, h59, true_and, and_true,
          and_self]
        try refine ⟨?_, ?_⟩
        all_goals
          first
            | rfl
            | (push_cast; ring)
            | (congr 1; push_cast; ring)
            | (norm_num [i16wrap])
            | decide
      · have h59 : n % 60 < 59 := by omega
        have hq : (n + 1) / 60 = n / 60 := by omega
        have hr : (n + 1) % 60 = n % 60 + 1 := by omega
        simp only [Walker.mk.injEq, FixedPoint.mk.injEq, hq, hr, true_and, and_true,
          and_self]
        try refine ⟨?_, ?_⟩
        all_goals
          first
            | rfl
            | (push_cast; ring)
            | (congr 1; push_cast; ring)
            | (norm_num [i16wrap])
            | decide
    case Cat =>
      show ((walkN _ n).walk).1 = _
      rw [ih]
      simp only [Walker.walk, period, speedFrac, FixedPoint.new, FixedPoint.add,
        FixedPoint.did_overflow]
      have hm : ((n % 90 : Nat) : Int) ≤ 89 := by omega
      rw [i16wrap_of_bounds (4 * ((n % 90 : Nat) : Int) + 4) (by omega) (by omega)]
      simp only [Int.add_zero, i8wrap_idem, i8wrap_add_one]
      split_ifs with hc
      · have h89 : n % 90 = 89 := by omega
        have hq : (n + 1) / 90 = n / 90 + 1 := by omega
        have hr : (n + 1) % 90 = 0 := by omega
        simp only [Walker.mk.injEq, FixedPoint.mk.injEq, hq, hr, h89, true_and, and_true,
          and_self]
        try refine ⟨?_, ?_⟩
        all_goals
          first
            | rfl
            | (push_cast; ring)
            | (congr 1; push_cast; ring)
            | (norm_num [i16wrap])
            | decide
      · have h89 : n % 90 < 89 := by omega
        have hq : (n + 1) / 90 = n / 90 := by omega
        have hr : (n + 1) % 90 = n % 90 + 1 := by omega
        simp only [Walker.mk.injEq, FixedPoint.mk.injEq, hq, hr, true_and, and_true,
          and_self]
        try refine ⟨?_, ?_⟩
        all_goals
          first
            | rfl
            | (push_cast; ring)
            | (congr 1; push_cast; ring)
            | (norm_num [i16wrap])
            | decide

theorem walkN_left (k : WalkerType) (x0 y0 : Int) (hx₁ : -128 ≤ x0) (hx₂ : x0 ≤ 127)
    (n : Nat) :
    walkN (Walker.new x0 y0 .Left k) n =
      { x := ⟨i8wrap (x0 - ((n / period k : Nat) : Int)),
              -(speedFrac k * ((n % period k : Nat) : Int))⟩,
        y := ⟨y0, 0⟩, direction := .Left, walker_type := k,
        walker_state := .Alive } := by
  induction n with
  | zero =>
    cases k <;>
      simp [walkN, Walker.new, FixedPoint.new, period, speedFrac,
        i8wrap_of_bounds x0 hx₁ hx₂]
  | succ n ih =>
    cases k
    case Mouse =>
      show ((walkN _ n).walk).1 = _
      rw [ih]
      simp only [Walker.walk, period, speedFrac, FixedPoint.new, FixedPoint.sub,
        FixedPoint.did_overflow]
      have hm : ((n % 60 : Nat) : Int) ≤ 59 := by omega
      rw [i16wrap_of_bounds (-(6 * ((n % 60 : Nat) : Int)) - 6) (by omega) (by omega)]
      simp only [Int.sub_zero, i8wrap_idem, i8wrap_sub_one]
      split_ifs with hc
      · have h59 : n % 60 = 59 := by omega
        have hq : (n + 1) / 60 = n / 60 + 1 := by omega
        have hr : (n + 1) % 60 = 0 := by omega
        simp only [Walker.mk.injEq, FixedPoint.mk.injEq, hq, hr, h59, true_and, and_true,
          and_self]
        try refine ⟨?_, ?_⟩
        all_goals
          first
            | rfl
            | (push_cast; ring)
            | (congr 1; push_cast; ring)
            | (norm_num [i16wrap])
            | decide
      · have h59 : n % 60 < 59 := by omega
        have hq : (n + 1) / 60 = n / 60 := by omega
        have hr : (n + 1) % 60 = n % 60 + 1 := by omega
        simp only [Walker.mk.injEq, FixedPoint.mk.injEq, hq, hr, true_and, and_true,
          and_self]
        try refine ⟨?_, ?_⟩
        all_goals
          first
            | rfl
            | (push_cast; ring)
            | (congr 1; push_cast; ring)
            | (norm_num [i16wrap])
            | decide
    case Cat =>
      show ((walkN _ n).walk).1 = _
      rw [ih]
      simp only [Walker.walk, period, speedFrac, FixedPoint.new, FixedPoint.sub,
        FixedPoint.did_overflow]
      have hm : ((n % 90 : Nat) : Int) ≤ 89 := by omega
      rw [i16wrap_of_bounds (-(4 * ((n % 90 : Nat) : Int)) - 4) (by omega) (by omega)]
      simp only [Int.sub_zero, i8wrap_idem, i8wrap_sub_one]
      split_ifs with hc
      · have h89 : n % 90 = 89 := by omega
        have hq : (n + 1) / 90 = n / 90 + 1 := by omega
        have hr : (n + 1) % 90 = 0 := by omega
        simp only [Walker.mk.injEq, FixedPoint.mk.injEq, hq, hr, h89, true_and, and_true,
          and_self]
        try refine ⟨?_, ?_⟩
        all_goals
          first
            | rfl
            | (push_cast; ring)
            | (congr 1; push_cast; ring)
            | (norm_num [i16wrap])
            | decide
      · have h89 : n % 90 < 89 := by omega
        have hq : (n + 1) / 90 = n / 90 := by omega
        have hr : (n + 1) % 90 = n % 90 + 1 := by omega
        simp only [Walker.mk.injEq, FixedPoint.mk.injEq, hq, hr, true_and, and_true,
          and_self]
        try refine ⟨?_, ?_⟩
        all_goals
          first
            | rfl
            | (push_cast; ring)
            | (congr 1; push_cast; ring)
            | (norm_num [i16wrap])
            | decide

theorem walkN_down (k : WalkerType) (x0 y0 : Int) (hy₁ : -128 ≤ y0) (hy₂ : y0 ≤ 127)
    (n : Nat) :
    walkN (Walker.new x0 y0 .Down k) n =
      { x := ⟨x0, 0⟩,
        y := ⟨i8wrap (y0 + ((n / period k : Nat) : Int)),
              speedFrac k * ((n % period k : Nat) : Int)⟩,
        direction := .Down, walker_type := k,
        walker_state := .Alive } := by
  induction n with
  | zero =>
    cases k <;>
      simp [walkN, Walker.new, FixedPoint.new, period, speedFrac,
        i8wrap_of_bounds y0 hy₁ hy₂]
  | succ n ih =>
    cases k
    case Mouse =>
      show ((walkN _ n).walk).1 = _
      rw [ih]
      simp only [Walker.walk, period, speedFrac, FixedPoint.new, FixedPoint.add,
        FixedPoint.did_overflow]
      have hm : ((n % 60 : Nat) : Int) ≤ 59 := by omega
      rw [i16wrap_of_bounds (6 * ((n % 60 : Nat) : Int) + 6) (by omega) (by omega)]
      simp only [Int.add_zero, i8wrap_idem, i8wrap_add_one]
      split_ifs with hc
      · have h59 : n % 60 = 59 := by omega
        have hq : (n + 1) / 60 = n / 60 + 1 := by omega
        have hr : (n + 1) % 60 = 0 := by omega
        simp only [Walker.mk.injEq, FixedPoint.mk.injEq, hq, hr, h59, true_and, and_true,
          and_self]
        try refine ⟨?_, ?_⟩
        all_goals
          first
            | rfl
            | (push_cast; ring)
            | (congr 1; push_cast; ring)
            | (norm_num [i16wrap])
            | decide
      · have h59 : n % 60 < 59 := by omega
        have hq : (n + 1) / 60 = n / 60 := by omega
        have hr : (n + 1) % 60 = n % 60 + 1 := by omega
        simp only [Walker.mk.injEq, FixedPoint.mk.injEq, hq, hr, true_and, and_true,
          and_self]
        try refine ⟨?_, ?_⟩
        all_goals
          first
            | rfl
            | (push_cast; ring)
            | (congr 1; push_cast; ring)
            | (norm_num [i16wrap])
            | decide
    case Cat =>
      show ((walkN _ n).walk).1 = _
      rw [ih]
      simp only [Walker.walk, period, speedFrac, FixedPoint.new, FixedPoint.add,
        FixedPoint.did_overflow]
      have hm : ((n % 90 : Nat) : Int) ≤ 89 := by omega
      rw [i16wrap_of_bounds (4 * ((n % 90 : Nat) : Int) + 4) (by omega) (by omega)]
      simp only [Int.add_zero, i8wrap_idem, i8wrap_add_one]
      split_ifs with hc
      · have h89 : n % 90 = 89 := by omega
        have hq : (n + 1) / 90 = n / 90 + 1 := by omega
        have hr : (n + 1) % 90 = 0 := by omega
        simp only [Walker.mk.injEq, FixedPoint.mk.injEq, hq, hr, h89, true_and, and_true,
          and_self]
        try refine ⟨?_, ?_⟩
        all_goals
          first
            | rfl
            | (push_cast; ring)
            | (congr 1; push_cast; ring)
            | (norm_num [i16wrap])
            | decide
      · have h89 : n % 90 < 89 := by omega
        have hq : (n + 1) / 90 = n / 90 := by omega
        have hr : (n + 1) % 90 = n % 90 + 1 := by omega
        simp only [Walker.mk.injEq, FixedPoint.mk.injEq, hq, hr, true_and, and_true,
          and_self]
        try refine ⟨?_, ?_⟩
        all_goals
          first
            | rfl
            | (push_cast; ring)
            | (congr 1; push_cast; ring)
            | (norm_num [i16wrap])
            | decide

theorem walkN_up (k : WalkerType) (x0 y0 : Int) (hy₁ : -128 ≤ y0) (hy₂ : y0 ≤ 127)
    (n : Nat) :
    walkN (Walker.new x0 y0 .Up k) n =
      { x := ⟨x0, 0⟩,
        y := ⟨i8wrap (y0 - ((n / period k : Nat) : Int)),
              -(speedFrac k * ((n % period k : Nat) : Int))⟩,
        direction := .Up, walker_type := k,
        walker_state := .Alive } := by
  induction n with
  | zero =>
    cases k <;>
      simp [walkN, Walker.new, FixedPoint.new, period, speedFrac,
        i8wrap_of_bounds y0 hy₁ hy₂]
  | succ n ih =>
    cases k
    case Mouse =>
      show ((walkN _ n).walk).1 = _
      rw [ih]
      simp only [Walker.walk, period, speedFrac, FixedPoint.new, FixedPoint.sub,
        FixedPoint.did_overflow]
      have hm : ((n % 60 : Nat) : Int) ≤ 59 := by omega
      rw [i16wrap_of_bounds (-(6 * ((n % 60 : Nat) : Int)) - 6) (by omega) (by omega)]
      simp only [Int.sub_zero, i8wrap_idem, i8wrap_sub_one]
      split_ifs with hc
      · have h59 : n % 60 = 59 := by omega
        have hq : (n + 1) / 60 = n / 60 + 1 := by omega
        have hr : (n + 1) % 60 = 0 := by omega
        simp only [Walker.mk.injEq, FixedPoint.mk.injEq, hq, hr, h59, true_and, and_true,
          and_self]
        try refine ⟨?_, ?_⟩
        all_goals
          first
            | rfl
            | (push_cast; ring)
            | (congr 1; push_cast; ring)
            | (norm_num [i16wrap])
            | decide
      · have h59 : n % 60 < 59 := by omega
        have hq : (n + 1) / 60 = n / 60 := by omega
        have hr : (n + 1) % 60 = n % 60 + 1 := by omega
        simp only [Walker.mk.injEq, FixedPoint.mk.injEq, hq, hr, true_and, and_true,
          and_self]
        try refine ⟨?_, ?_⟩
        all_goals
          first
            | rfl
            | (push_cast; ring)
            | (congr 1; push_cast; ring)
            | (norm_num [i16wrap])
            | decide
    case Cat =>
      show ((walkN _ n).walk).1 = _
      rw [ih]
      simp only [Walker.walk, period, speedFrac, FixedPoint.new, FixedPoint.sub,
        FixedPoint.did_overflow]
      have hm : ((n % 90 : Nat) : Int) ≤ 89 := by omega
      rw [i16wrap_of_bounds (-(4 * ((n % 90 : Nat) : Int)) - 4) (by omega) (by omega)]
      simp only [Int.sub_zero, i8wrap_idem, i8wrap_sub_one]
      split_ifs with hc
      · have h89 : n % 90 = 89 := by omega
        have hq : (n + 1) / 90 = n / 90 + 1 := by omega
        have hr : (n + 1) % 90 = 0 := by omega
        simp only [Walker.mk.injEq, FixedPoint.mk.injEq, hq, hr, h89, true_and, and_true,
          and_self]
        try refine ⟨?_, ?_⟩
        all_goals
          first
            | rfl
            | (push_cast; ring)
            | (congr 1; push_cast; ring)
            | (norm_num [i16wrap])
            | decide
      · have h89 : n % 90 < 89 := by omega
        have hq : (n + 1) / 90 = n / 90 := by omega
        have hr : (n + 1) % 90 = n % 90 + 1 := by omega
        simp only [Walker.mk.injEq, FixedPoint.mk.injEq, hq, hr, true_and, and_true,
          and_self]
        try refine ⟨?_, ?_⟩
        all_goals
          first
            | rfl
            | (push_cast; ring)
            | (congr 1; push_cast; ring)
            | (norm_num [i16wrap])
            | decide

/-- Horizontal displacement sign of a direction. -/
def dirDX : Direction → Int
  | .Right => 1
  | .Left => -1
  | .Up => 0
  | .Down => 0

/-- Vertical displacement sign of a direction. -/
def dirDY : Direction → Int
  | .Down => 1
  | .Up => -1
  | .Left => 0
  | .Right => 0

/-- `walk` reports NewSquare exactly when the integer part of a coordinate
changed in that call. -/
theorem walk_newSquare_iff (w : Walker) :
    w.walk.2 = .NewSquare ↔
      (w.walk.1.x.value ≠ w.x.value ∨ w.walk.1.y.value ≠ w.y.value) := by
  obtain ⟨x, y, d, k, s⟩ := w
  cases d <;> cases k <;>
    (simp only [Walker.walk, FixedPoint.did_overflow]
     split_ifs with h <;> simp_all)

/-- C8: a walker created at integer grid coordinates and walking straight
reports NewSquare exactly on every `period`-th call (60 for a mouse, 90
for a cat) and None otherwise; NewSquare holds iff the integer part of a
coordinate changed on that call; Up/Left decrement their axis by one cell
per period, Down/Right increment it. -/
theorem c8_walker_walk_schedule (k : WalkerType) (d : Direction) (x0 y0 : Int)
    (hx₁ : -128 ≤ x0) (hx₂ : x0 ≤ 127) (hy₁ : -128 ≤ y0) (hy₂ : y0 ≤ 127) (n : Nat) :
    (((walkN (Walker.new x0 y0 d k) n).walk).2 = .NewSquare ↔ (n + 1) % period k = 0) ∧
    (((walkN (Walker.new x0 y0 d k) n).walk).2 = .NewSquare ↔
      (((walkN (Walker.new x0 y0 d k) n).walk).1.x.value ≠
          (walkN (Walker.new x0 y0 d k) n).x.value ∨
       ((walkN (Walker.new x0 y0 d k) n).walk).1.y.value ≠
          (walkN (Walker.new x0 y0 d k) n).y.value)) ∧
    (walkN (Walker.new x0 y0 d k) n).x.value =
      i8wrap (x0 + dirDX d * ((n / period k : Nat) : Int)) ∧
    (walkN (Walker.new x0 y0 d k) n).y.value =
      i8wrap (y0 + dirDY d * ((n / period k : Nat) : Int)) := by
  have hstep : ((walkN (Walker.new x0 y0 d k) n).walk).1 =
      walkN (Walker.new x0 y0 d k) (n + 1) := rfl
  refine ⟨?_, walk_newSquare_iff _, ?_, ?_⟩
  · rw [walk_newSquare_iff, hstep]
    cases d
    · rw [walkN_up k x0 y0 hy₁ hy₂ n, walkN_up k x0 y0 hy₁ hy₂ (n + 1)]
      cases k <;> (simp only [period, speedFrac, i8wrap]; omega)
    · rw [walkN_down k x0 y0 hy₁ hy₂ n, walkN_down k x0 y0 hy₁ hy₂ (n + 1)]
      cases k <;> (simp only [period, speedFrac, i8wrap]; omega)
    · rw [walkN_left k x0 y0 hx₁ hx₂ n, walkN_left k x0 y0 hx₁ hx₂ (n + 1)]
      cases k <;> (simp only [period, speedFrac, i8wrap]; omega)
    · rw [walkN_right k x0 y0 hx₁ hx₂ n, walkN_right k x0 y0 hx₁ hx₂ (n + 1)]
      cases k <;> (simp only [period, speedFrac, i8wrap]; omega)
  · cases d
    · rw [walkN_up k x0 y0 hy₁ hy₂ n]
      simp [dirDX, i8wrap_of_bounds x0 hx₁ hx₂]
    · rw [walkN_down k x0 y0 hy₁ hy₂ n]
      simp [dirDX, i8wrap_of_bounds x0 hx₁ hx₂]
    · rw [walkN_left k x0 y0 hx₁ hx₂ n]
      simp [dirDX, Int.sub_eq_add_neg]
    · rw [walkN_right k x0 y0 hx₁ hx₂ n]
      simp [dirDX]
  · cases d
    · rw [walkN_up k x0 y0 hy₁ hy₂ n]
      simp [dirDY, Int.sub_eq_add_neg]
    · rw [walkN_down k x0 y0 hy₁ hy₂ n]
      simp [dirDY]
    · rw [walkN_left k x0 y0 hx₁ hx₂ n]
      simp [dirDY, i8wrap_of_bounds y0 hy₁ hy₂]
    · rw [walkN_right k x0 y0 hx₁ hx₂ n]
      simp [dirDY, i8wrap_of_bounds y0 hy₁ hy₂]

/-- Witness for C8: a mouse walking right from (0,0), at its 60th call. -/
theorem c8_walker_walk_schedule_witness :
    (((walkN (Walker.new 0 0 .Right .Mouse) 59).walk).2 = .NewSquare ↔
      (59 + 1) % period .Mouse = 0) ∧
    (((walkN (Walker.new 0 0 .Right .Mouse) 59).walk).2 = .NewSquare ↔
      (((walkN (Walker.new 0 0 .Right .Mouse) 59).walk).1.x.value ≠
          (walkN (Walker.new 0 0 .Right .Mouse) 59).x.value ∨
       ((walkN (Walker.new 0 0 .Right .Mouse) 59).walk).1.y.value ≠
          (walkN (Walker.new 0 0 .Right .Mouse) 59).y.value)) ∧
    (walkN (Walker.new 0 0 .Right .Mouse) 59).x.value =
      i8wrap (0 + dirDX .Right * ((59 / period .Mouse : Nat) : Int)) ∧
    (walkN (Walker.new 0 0 .Right .Mouse) 59).y.value =
      i8wrap (0 + dirDY .Right * ((59 / period .Mouse : Nat) : Int)) :=
  c8_walker_walk_schedule .Mouse .Right 0 0 (by decide) (by decide) (by decide) (by decide) 59




inductive WorldStateChange where
  | Win
  | Lose
  | NoChange
deriving DecidableEq, Repr

namespace World

/-- `World::get_arrow_static` (tile grid indexed `y*WIDTH+x`). -/
def get_arrow_static (arrows : List TileType) (x y : Nat) : TileType :=
  arrows.getD (y * WORLD_WIDTH + x) TileType.Empty

/-- `World::set_tile_static`. -/
def set_tile_static (tiles : List TileType) (x y : Nat) (tile_type : TileType) :
    List TileType :=
  tiles.set (y * WORLD_WIDTH + x) tile_type

def get_arrow (w : World) (x y : Nat) : TileType := get_arrow_static w.tiles x y

def set_tile (w : World) (x y : Nat) (tile_type : TileType) : World :=
  { w with tiles := set_tile_static w.tiles x y tile_type }

def set_arrow (w : World) (x y : Nat) (tile_type : TileType) : World :=
  { w with tiles := set_tile_static w.tiles x y tile_type }

/-- `World::check_rockets_and_holes`: a Hole kills, a Rocket rescues, any
other tile does nothing.  The walker's integer coordinates index the tile
grid (`as usize`: nonnegative in any valid state). -/
def check_rockets_and_holes (tiles : List TileType) (walker : Walker) : Walker :=
  let x := walker.get_x.integer_part.toNat
  let y := walker.get_y.integer_part.toNat
  let tile := tiles.getD (y * WORLD_WIDTH + x) TileType.Empty
  match tile with
  | TileType.Hole => walker.kill
  | TileType.Rocket => walker.rescue
  | _ => walker

/-- `World::check_arrows`: an arrow tile forces the walker's direction to
the arrow's direction; if the walker is a cat being turned 180 degrees
the arrow is diminished in place first. -/
def check_arrows (tiles : List TileType) (walker : Walker) : List TileType × Walker :=
  let x := walker.get_x.integer_part.toNat
  let y := walker.get_y.integer_part.toNat
  let arrow := get_arrow_static tiles x y
  match arrow.tileDirection with
  | some direction =>
      let tiles' :=
        if walker.get_type = .Cat ∧ walker.get_direction.turn_around = direction then
          set_tile_static tiles x y arrow.diminish
        else tiles
      (tiles', walker.set_direction direction)
  | none => (tiles, walker)

/-- `World::check_walls`: the first unblocked direction among
[current, right, left, around] is adopted; if all four are walled the
direction is left unchanged. -/
def check_walls (wall_data : List Nat) (walker : Walker) : Walker :=
  let x := walker.get_x.integer_part.toNat
  let y := walker.get_y.integer_part.toNat
  let direction := walker.get_direction
  let candidate_directions :=
    [direction, direction.turn_right, direction.turn_left, direction.turn_around]
  match candidate_directions.find? (fun c => !get_wall_static wall_data x y c) with
  | some c => walker.set_direction c
  | none => walker

/-- One walker's share of `World::tick` steps 1-4: walk, then on a
NewSquare result check holes/rockets, arrows and walls. -/
def tickWalker (data : List Nat) (tiles : List TileType) (walker : Walker) :
    List TileType × Walker :=
  let wr := walker.walk
  if wr.2 = .NewSquare then
    let w2 := check_rockets_and_holes tiles wr.1
    let tw3 := check_arrows tiles w2
    let w4 := check_walls data tw3.2
    (tw3.1, w4)
  else (tiles, wr.1)

/-- Steps 1-4 of `World::tick` over a walker registry, in order, threading
the tile grid. -/
def tickWalkers (data : List Nat) : List Walker → List TileType → List Walker × List TileType
  | [], tiles => ([], tiles)
  | w :: rest, tiles =>
      let tw := tickWalker data tiles w
      let rt := tickWalkers data rest tw.1
      (tw.2 :: rt.1, rt.2)

/-- `World::tick`: advance all mice then all cats (steps 1-4), compute the
world state change (Lose assigned first, then the Win check can overwrite
it), prune non-Alive walkers, return the change. -/
def tick (w : World) : World × WorldStateChange :=
  let mt := tickWalkers w.data w.mice w.tiles
  let ct := tickWalkers w.data w.cats mt.2
  let change0 := WorldStateChange.NoChange
  let change1 :=
    if mt.1.any (fun m => decide (m.get_state = .Dead)) ||
        ct.1.any (fun c => decide (c.get_state = .Rescued)) then
      WorldStateChange.Lose
    else change0
  let change2 :=
    if !mt.1.isEmpty && mt.1.all (fun m => decide (m.get_state = .Rescued)) then
      WorldStateChange.Win
    else change1
  let mice2 := mt.1.filter (fun m => decide (m.get_state = .Alive))
  let cats2 := ct.1.filter (fun c => decide (c.get_state = .Alive))
  ({ w with mice := mice2, cats := cats2, tiles := ct.2 }, change2)

end World

/-- Modelled from the spec (amended outcome rule): Win when there is at
least one mouse and every mouse is Rescued — taking precedence over Lose —
else Lose when some mouse is Dead or some cat is Rescued, else NoChange,
all evaluated on the post-advance walker registries. -/
def specOutcome (mice cats : List Walker) : WorldStateChange :=
  if mice ≠ [] ∧ ∀ m ∈ mice, m.get_state = .Rescued then .Win
  else if (∃ m ∈ mice, m.get_state = .Dead) ∨ (∃ c ∈ cats, c.get_state = .Rescued) then .Lose
  else .NoChange

/-- C1 (amended): tick returns exactly the outcome rule on the advanced
walkers, with Win taking precedence over Lose when both hold (the Win
check is performed after the Lose assignment and overwrites it). -/
theorem c1_tick_outcome (w : World) :
    (World.tick w).2 =
      specOutcome (World.tickWalkers w.data w.mice w.tiles).1
        (World.tickWalkers w.data w.cats (World.tickWalkers w.data w.mice w.tiles).2).1 := by
  simp only [World.tick, specOutcome]
  split_ifs with h1 h2 h3 h4 <;>
    first
      | rfl
      | (simp_all [List.any_eq_true, List.all_eq_true, List.isEmpty_iff, Walker.get_state] <;>
          tauto)



/-- A world one tick away from a simultaneous win and loss: the mouse is
6/360 short of the rocket at (1,0), the cat 4/360 short of the rocket at
(1,1). -/
def simultaneousWorld : World :=
  { data := List.replicate 199 0
    mice := [{ x := ⟨0, 354⟩, y := ⟨0, 0⟩, direction := .Right,
               walker_type := .Mouse, walker_state := .Alive }]
    cats := [{ x := ⟨0, 356⟩, y := ⟨1, 0⟩, direction := .Right,
               walker_type := .Cat, walker_state := .Alive }]
    tiles := ((List.replicate 108 TileType.Empty).set 1 TileType.Rocket).set 13
      TileType.Rocket }

/-- C1 counterexample: in `simultaneousWorld` one tick rescues the only
mouse and a cat simultaneously; both the Win and the Lose condition hold
after advancing, yet `tick` returns Win, not Lose as the claim states. -/
theorem c1_tick_outcome_counterexample :
    ((World.tickWalkers simultaneousWorld.data simultaneousWorld.mice
        simultaneousWorld.tiles).1 ≠ [] ∧
      ∀ m ∈ (World.tickWalkers simultaneousWorld.data simultaneousWorld.mice
        simultaneousWorld.tiles).1, m.get_state = .Rescued) ∧
    (∃ c ∈ (World.tickWalkers simultaneousWorld.data simultaneousWorld.cats
        (World.tickWalkers simultaneousWorld.data simultaneousWorld.mice
          simultaneousWorld.tiles).2).1, c.get_state = .Rescued) ∧
    (World.tick simultaneousWorld).2 = .Win ∧
    (World.tick simultaneousWorld).2 ≠ .Lose := by
  decide



/-- C6: on an arrow tile (full or half) `check_arrows` unconditionally
sets the walker's direction to the arrow's direction, leaving position,
kind and life state untouched; the tile is diminished exactly when the
walker is a Cat whose direction before the reassignment was the exact
opposite of the arrow's; Empty/Rocket/Hole change nothing; diminishing
maps full arrows to half arrows and half arrows to Empty. -/
theorem c6_check_arrows_redirect_diminish (tiles : List TileType) (w : Walker) :
    (∀ dir : Direction,
      (World.get_arrow_static tiles w.get_x.integer_part.toNat
          w.get_y.integer_part.toNat).tileDirection = some dir →
        (World.check_arrows tiles w).2.direction = dir ∧
        (World.check_arrows tiles w).2.x = w.x ∧
        (World.check_arrows tiles w).2.y = w.y ∧
        (World.check_arrows tiles w).2.walker_type = w.walker_type ∧
        (World.check_arrows tiles w).2.walker_state = w.walker_state ∧
        (World.check_arrows tiles w).1 =
          (if w.walker_type = .Cat ∧ w.direction.turn_around = dir then
            World.set_tile_static tiles w.get_x.integer_part.toNat
              w.get_y.integer_part.toNat
              (World.get_arrow_static tiles w.get_x.integer_part.toNat
                w.get_y.integer_part.toNat).diminish
          else tiles)) ∧
    ((World.get_arrow_static tiles w.get_x.integer_part.toNat
        w.get_y.integer_part.toNat).tileDirection = none →
      World.check_arrows tiles w = (tiles, w)) ∧
    (TileType.Up.diminish = .UpHalf ∧ TileType.Down.diminish = .DownHalf ∧
     TileType.Left.diminish = .LeftHalf ∧ TileType.Right.diminish = .RightHalf ∧
     TileType.UpHalf.diminish = .Empty ∧ TileType.DownHalf.diminish = .Empty ∧
     TileType.LeftHalf.diminish = .Empty ∧ TileType.RightHalf.diminish = .Empty) := by
  refine ⟨?_, ?_, by decide⟩
  · intro dir hdir
    simp only [World.check_arrows, hdir, Walker.set_direction, Walker.get_type,
      Walker.get_direction]
    simp
  · intro hdir
    simp only [World.check_arrows, hdir]

/-- C7: `check_walls` adopts the first of the four candidate directions
[current, turn-right, turn-left, turn-around] whose edge of the current
cell has no wall; if all four edges are walled the walker is returned
unchanged. -/
theorem c7_check_walls_priority (wall_data : List Nat) (w : Walker) :
    ((∀ c ∈ [w.direction, w.direction.turn_right, w.direction.turn_left,
        w.direction.turn_around],
      World.get_wall_static wall_data w.get_x.integer_part.toNat
        w.get_y.integer_part.toNat c = true) →
      World.check_walls wall_data w = w) ∧
    (∀ i, i < 4 →
      World.get_wall_static wall_data w.get_x.integer_part.toNat
        w.get_y.integer_part.toNat
        ([w.direction, w.direction.turn_right, w.direction.turn_left,
          w.direction.turn_around].getD i w.direction) = false →
      (∀ j, j < i →
        World.get_wall_static wall_data w.get_x.integer_part.toNat
          w.get_y.integer_part.toNat
          ([w.direction, w.direction.turn_right, w.direction.turn_left,
            w.direction.turn_around].getD j w.direction) = true) →
      World.check_walls wall_data w =
        w.set_direction ([w.direction, w.direction.turn_right, w.direction.turn_left,
          w.direction.turn_around].getD i w.direction)) := by
  constructor
  · intro hall
    have h0 := hall w.direction (by simp)
    have h1 := hall w.direction.turn_right (by simp)
    have h2 := hall w.direction.turn_left (by simp)
    have h3 := hall w.direction.turn_around (by simp)
    simp [World.check_walls, List.find?, Walker.get_direction, h0, h1, h2, h3]
  · intro i hi hfalse hprev
    interval_cases i
    · simp_all [World.check_walls, List.find?, Walker.get_direction]
    · have h0 := hprev 0 (by omega)
      simp_all [World.check_walls, List.find?, Walker.get_direction]
    · have h0 := hprev 0 (by omega)
      have h1 := hprev 1 (by omega)
      simp_all [World.check_walls, List.find?, Walker.get_direction]
    · have h0 := hprev 0 (by omega)
      have h1 := hprev 1 (by omega)
      have h2 := hprev 2 (by omega)
      simp_all [World.check_walls, List.find?, Walker.get_direction]


/-- Witness for C6: a cat walking right into an opposing Left arrow at
(2,0) is turned to face Left and the arrow is diminished to LeftHalf. -/
theorem c6_check_arrows_redirect_diminish_witness :
    (World.check_arrows ((List.replicate 108 TileType.Empty).set 2 TileType.Left)
      (Walker.new 2 0 .Right .Cat)).2.direction = .Left ∧
    (World.check_arrows ((List.replicate 108 TileType.Empty).set 2 TileType.Left)
      (Walker.new 2 0 .Right .Cat)).2.x = (Walker.new 2 0 .Right .Cat).x ∧
    (World.check_arrows ((List.replicate 108 TileType.Empty).set 2 TileType.Left)
      (Walker.new 2 0 .Right .Cat)).2.y = (Walker.new 2 0 .Right .Cat).y ∧
    (World.check_arrows ((List.replicate 108 TileType.Empty).set 2 TileType.Left)
      (Walker.new 2 0 .Right .Cat)).2.walker_type = (Walker.new 2 0 .Right .Cat).walker_type ∧
    (World.check_arrows ((List.replicate 108 TileType.Empty).set 2 TileType.Left)
      (Walker.new 2 0 .Right .Cat)).2.walker_state = (Walker.new 2 0 .Right .Cat).walker_state ∧
    (World.check_arrows ((List.replicate 108 TileType.Empty).set 2 TileType.Left)
      (Walker.new 2 0 .Right .Cat)).1 =
      (if (Walker.new 2 0 .Right .Cat).walker_type = .Cat ∧
          (Walker.new 2 0 .Right .Cat).direction.turn_around = .Left then
        World.set_tile_static ((List.replicate 108 TileType.Empty).set 2 TileType.Left)
          (Walker.new 2 0 .Right .Cat).get_x.integer_part.toNat
          (Walker.new 2 0 .Right .Cat).get_y.integer_part.toNat
          (World.get_arrow_static ((List.replicate 108 TileType.Empty).set 2 TileType.Left)
            (Walker.new 2 0 .Right .Cat).get_x.integer_part.toNat
            (Walker.new 2 0 .Right .Cat).get_y.integer_part.toNat).diminish
      else (List.replicate 108 TileType.Empty).set 2 TileType.Left) :=
  (c6_check_arrows_redirect_diminish ((List.replicate 108 TileType.Empty).set 2 TileType.Left)
    (Walker.new 2 0 .Right .Cat)).1 .Left (by decide)

/-- Witness for C7: at (11,0) of a fresh world a walker heading Up has
walls ahead and to its right, so the third candidate (turn-left) wins. -/
theorem c7_check_walls_priority_witness :
    World.check_walls newWorldData (Walker.new 11 0 .Up .Mouse) =
      (Walker.new 11 0 .Up .Mouse).set_direction
        ([(Walker.new 11 0 .Up .Mouse).direction,
          (Walker.new 11 0 .Up .Mouse).direction.turn_right,
          (Walker.new 11 0 .Up .Mouse).direction.turn_left,
          (Walker.new 11 0 .Up .Mouse).direction.turn_around].getD 2
          (Walker.new 11 0 .Up .Mouse).direction) :=
  (c7_check_walls_priority newWorldData (Walker.new 11 0 .Up .Mouse)).2 2 (by decide)
    (by decide) (by decide)


/-! ## StateMachine (src/simulation/src/state_machine.rs, common/src/input.rs) -/

structure ButtonState where
  down : Bool
  pressed : Bool
  released : Bool
deriving DecidableEq, Repr

structure InputState where
  js_x : Int
  js_y : Int
  js_up : ButtonState
  js_down : ButtonState
  js_left : ButtonState
  js_right : ButtonState
  btn_a : ButtonState
  btn_b : ButtonState
  btn_start : ButtonState
  btn_select : ButtonState
deriving DecidableEq, Repr

structure IntroState where
  frame : Nat
  transition_started : Bool
deriving DecidableEq, Repr

structure MenuState where
  map_index : Nat
  map_count : Nat
deriving DecidableEq, Repr

structure GameState where
deriving DecidableEq, Repr

inductive AppState where
  | Intro (state : IntroState)
  | Menu (state : MenuState)
  | Game (state : GameState)
deriving DecidableEq, Repr

/-- `IntroState::tick`: increment the frame counter, then request the Menu
state once (latched by `transition_started`) on a button press or on
frame 120. -/
def introTick (s : IntroState) (input : InputState) : IntroState × Option AppState :=
  let s := { s with frame := s.frame + 1 }
  if !s.transition_started &&
      (input.btn_start.pressed || input.btn_a.pressed || input.btn_b.pressed ||
        s.frame == 120) then
    ({ s with transition_started := true },
      some (.Menu { map_count := 10, map_index := 0 }))
  else
    (s, none)

/-- `MenuState::tick`: joystick up/down flicks cycle the map index with
wraparound at 0 and 10. -/
def menuTick (s : MenuState) (input : InputState) : MenuState × Option AppState :=
  let s :=
    if input.js_up.pressed then
      { s with map_index := match s.map_index with | 0 => 10 | other => other - 1 }
    else s
  let s :=
    if input.js_down.pressed then
      { s with map_index := match s.map_index with | 10 => 0 | other => other + 1 }
    else s
  (s, none)

/-- `GameState::tick`. -/
def gameTick (s : GameState) (_input : InputState) : GameState × Option AppState :=
  (s, none)

/-- `AppState::tick` dispatch. -/
def appTick : AppState → InputState → AppState × Option AppState
  | .Intro s, input =>
      let r := introTick s input
      (.Intro r.1, r.2)
  | .Menu s, input =>
      let r := menuTick s input
      (.Menu r.1, r.2)
  | .Game s, input =>
      let r := gameTick s input
      (.Game r.1, r.2)

structure StateMachine where
  state : AppState
  world : World
  target_state : AppState
  transition_timer : Nat

namespace StateMachine

/-- `StateMachine::new`. -/
def new : StateMachine :=
  let initial_state := AppState.Intro { frame := 0, transition_started := false }
  { state := initial_state
    world := World.new
    target_state := initial_state
    transition_timer := 0 }

/-- The transition-handling prologue of `StateMachine::tick`: while the
target differs and the timer is positive, count down; once it reaches
zero, snap the state to the target. -/
def transitionStep (sm : StateMachine) : AppState × Nat :=
  if sm.state ≠ sm.target_state then
    if 0 < sm.transition_timer then (sm.state, sm.transition_timer - 1)
    else (sm.target_state, sm.transition_timer)
  else (sm.state, sm.transition_timer)

/-- `StateMachine::tick`: handle the pending transition, tick the (new)
current state, and latch any requested target with a 45-frame timer. -/
def tick (sm : StateMachine) (input : InputState) : StateMachine :=
  let st := transitionStep sm
  let r := appTick st.1 input
  match r.2 with
  | some target_state =>
      { state := r.1, world := sm.world, target_state := target_state,
        transition_timer := 45 }
  | none =>
      { state := r.1, world := sm.world, target_state := sm.target_state,
        transition_timer := st.2 }

end StateMachine

/-- The state machines reachable from `StateMachine::new` by ticking. -/
inductive Reachable : StateMachine → Prop where
  | base : Reachable StateMachine.new
  | step (sm : StateMachine) (input : InputState) :
      Reachable sm → Reachable (sm.tick input)

/-- While a transition is pending (timer positive) the current state is a
latched Intro and the target is the Menu. -/
def SMInv (sm : StateMachine) : Prop :=
  0 < sm.transition_timer →
    (∃ f, sm.state = .Intro { frame := f, transition_started := true }) ∧
    (∃ m, sm.target_state = .Menu m)

theorem introTick_latched (f : Nat) (input : InputState) :
    introTick { frame := f, transition_started := true } input =
      ({ frame := f + 1, transition_started := true }, none) := by
  simp [introTick]

theorem appTick_some {s : AppState} {input : InputState} {t : AppState}
    (h : (appTick s input).2 = some t) :
    (∃ f, (appTick s input).1 = .Intro { frame := f, transition_started := true }) ∧
    t = .Menu { map_index := 0, map_count := 10 } := by
  cases s with
  | Intro s0 =>
      simp only [appTick, introTick] at h ⊢
      split at h
      next hcond =>
        simp only [Option.some.injEq] at h
        rw [if_pos hcond]
        exact ⟨⟨s0.frame + 1, rfl⟩, h.symm⟩
      next hcond => simp at h
  | Menu s0 => simp_all [appTick, menuTick]
  | Game s0 => simp_all [appTick, gameTick]

theorem reachable_inv (sm : StateMachine) (h : Reachable sm) : SMInv sm := by
  induction h with
  | base => intro h0; simp [StateMachine.new] at h0
  | step sm input hr ih =>
      intro h0
      simp only [StateMachine.tick] at h0 ⊢
      rcases hsome : (appTick (StateMachine.transitionStep sm).1 input).2 with _ | t
      · -- no transition request: timer carried over from transitionStep
        simp only [hsome] at h0 ⊢
        simp only [StateMachine.transitionStep] at h0 ⊢
        split_ifs at h0 ⊢ with h1 h2
        · -- counting down: previous timer was at least 2
          dsimp only at h0 ⊢
          have hiv := ih (by omega)
          obtain ⟨⟨f, hst⟩, ⟨m, htg⟩⟩ := hiv
          rw [hst]
          simp only [appTick, introTick_latched]
          exact ⟨⟨f + 1, rfl⟩, ⟨m, htg⟩⟩
        · -- snap at zero keeps the timer at zero
          dsimp only at h0
          exact absurd h0 h2
        · -- state equal to target: invariant says timer cannot be positive
          dsimp only at h0
          have hiv := ih h0
          obtain ⟨⟨f, hst⟩, ⟨m, htg⟩⟩ := hiv
          rw [hst, htg] at h1
          simp at h1
      · -- a request latches Intro as current state and Menu as target
        simp only [hsome] at h0 ⊢
        obtain ⟨⟨f, hst⟩, ht⟩ := appTick_some hsome
        exact ⟨⟨f, hst⟩, ⟨_, ht⟩⟩




/-- C9: on any reachable tick with a pending transition and a positive
timer, the current state (not the target) is the one ticked and the timer
decreases by exactly one; the state is replaced by the target only on a
tick where the timer has reached zero; every transition request latches
the target and sets the timer to 45. -/
theorem c9_state_machine_transition (sm : StateMachine) (h : Reachable sm)
    (input : InputState) :
    (sm.state ≠ sm.target_state → 0 < sm.transition_timer →
      (sm.tick input).state = (appTick sm.state input).1 ∧
      (sm.tick input).target_state = sm.target_state ∧
      (sm.tick input).transition_timer = sm.transition_timer - 1) ∧
    (sm.state ≠ sm.target_state → sm.transition_timer = 0 →
      (sm.tick input).state = (appTick sm.target_state input).1) ∧
    (∀ t, (appTick (StateMachine.transitionStep sm).1 input).2 = some t →
      (sm.tick input).target_state = t ∧ (sm.tick input).transition_timer = 45) := by
  refine ⟨?_, ?_, ?_⟩
  · intro hne htpos
    obtain ⟨⟨f, hst⟩, ⟨m, htg⟩⟩ := reachable_inv sm h htpos
    have hstep : StateMachine.transitionStep sm = (sm.state, sm.transition_timer - 1) := by
      simp [StateMachine.transitionStep, hne, htpos]
    have hnone : (appTick sm.state input).2 = none := by
      rw [hst]
      simp [appTick, introTick_latched]
    simp [StateMachine.tick, hstep, hnone]
  · intro hne htz
    have hstep : StateMachine.transitionStep sm = (sm.target_state, sm.transition_timer) := by
      simp [StateMachine.transitionStep, hne, htz]
    simp only [StateMachine.tick, hstep]
    rcases hr : (appTick sm.target_state input).2 with _ | t <;> simp [hr]
  · intro t hsome
    simp [StateMachine.tick, hsome]

/-- An input snapshot with no buttons pressed. -/
def idleInput : InputState :=
  { js_x := 0, js_y := 0
    js_up := ⟨false, false, false⟩, js_down := ⟨false, false, false⟩
    js_left := ⟨false, false, false⟩, js_right := ⟨false, false, false⟩
    btn_a := ⟨false, false, false⟩, btn_b := ⟨false, false, false⟩
    btn_start := ⟨false, false, false⟩, btn_select := ⟨false, false, false⟩ }

/-- An input snapshot with Start just pressed. -/
def startInput : InputState := { idleInput with btn_start := ⟨true, true, false⟩ }

/-- The machine one tick after construction with Start pressed: a latched
Intro ticking down a 45-frame transition towards the Menu. -/
def smAfterStart : StateMachine := StateMachine.new.tick startInput

/-- Witness for C9: one tick into the Intro-to-Menu transition window. -/
theorem c9_state_machine_transition_witness :
    (StateMachine.tick smAfterStart idleInput).state =
        (appTick smAfterStart.state idleInput).1 ∧
    (StateMachine.tick smAfterStart idleInput).target_state = smAfterStart.target_state ∧
    (StateMachine.tick smAfterStart idleInput).transition_timer =
        smAfterStart.transition_timer - 1 :=
  (c9_state_machine_transition smAfterStart (Reachable.step _ _ Reachable.base) idleInput).1 (by decide)
    (by decide)


/-! ## Map authoring: solution-arrow extraction (src/world_macros/src/lib.rs)

`extract_arrows` reads the arrow glyph pair at columns `col*5+3` and
`col*5+4` of each odd row and ORs the packed arrow bits into the 108-byte
tile block (the bytes at offsets 91..198 of the 199-byte map).  Errors
(`compile_error!` token streams) are modelled as `Except.error`. -/

def ARROW_PRESENT_MASK : Nat := 4
def ARROW_DIRECTION_UP : Nat := 0
def ARROW_DIRECTION_DOWN : Nat := 1
def ARROW_DIRECTION_LEFT : Nat := 2
def ARROW_DIRECTION_RIGHT : Nat := 3

deriving instance DecidableEq for Except

/-- The per-cell match of `extract_arrows` on the two arrow-glyph
characters. -/
def extract_arrows_cell (c₁ c₂ : Char) (byte : Nat) : Except Unit Nat :=
  if c₁ = 'A' ∧ c₂ = '<' then .ok (byte ||| ARROW_DIRECTION_LEFT)
  else if c₁ = 'A' ∧ c₂ = '>' then .ok (byte ||| ARROW_DIRECTION_RIGHT)
  else if c₁ = 'A' ∧ c₂ = '^' then .ok (byte ||| ARROW_DIRECTION_UP)
  else if c₁ = 'A' ∧ c₂ = 'v' then .ok (byte ||| ARROW_DIRECTION_DOWN)
  else if c₁ = ' ' ∧ c₂ = ' ' then .ok byte
  else .error ()

/-- One odd row of `extract_arrows`. -/
def extract_arrows_row (line : List Char) (row_index : Nat) (output : List Nat) :
    Except Unit (List Nat) :=
  (List.range WORLD_WIDTH).foldlM
    (fun out col_index =>
      let arrow_index := col_index + row_index * WORLD_WIDTH
      match extract_arrows_cell (line.getD (col_index * 5 + 3) ' ')
          (line.getD (col_index * 5 + 4) ' ') (out.getD arrow_index 0) with
      | .ok b => .ok (out.set arrow_index b)
      | .error e => .error e)
    output

/-- `extract_arrows` over the odd rows of a map body. -/
def extract_arrows (rows : List (List Char)) (output : List Nat) :
    Except Unit (List Nat) :=
  rows.enum.foldlM (fun out p => extract_arrows_row p.2 p.1 out) output

/-- An odd map row carrying a Left arrow in cell 0 and an Up arrow in
cell 1. -/
def arrowRow : List Char :=
  '│' :: ' ' :: ' ' :: 'A' :: '<' :: ' ' :: ' ' :: ' ' :: 'A' :: '^' ::
    (List.replicate 50 ' ' ++ ['│'])

/-- An odd map row with no entities or arrows. -/
def blankRow : List Char := '│' :: (List.replicate 59 ' ' ++ ['│'])

/-- C3 (code bug evidence): a map row whose cell 0 carries the arrow
glyph pair `A<` yields entity/arrow byte 0b010 — direction bits as
documented but the arrow-present bit (bit 2) clear, contradicting the
documented format; moreover a cell with `A^` (byte 0b000) is
indistinguishable from the untouched empty cell next to it. -/
theorem c3_extract_arrows_present_bit_missing :
    extract_arrows (arrowRow :: List.replicate 8 blankRow) (List.replicate 108 0) =
      Except.ok ((List.replicate 108 0).set 0 ARROW_DIRECTION_LEFT) ∧
    ARROW_DIRECTION_LEFT &&& ARROW_PRESENT_MASK = 0 ∧
    ((List.replicate 108 0).set 0 ARROW_DIRECTION_LEFT).getD 1 0 =
      (List.replicate 108 0).getD 1 0 := by
  decide

end ShokoRocket
